import Mathlib

/-!
# Verification of the snake-game logic core (`src/snake.rs`, `src/arena.rs`, `src/food.rs`)

Shallow embedding of the snake state machine. The ECS world is modelled
explicitly: entities are natural-number ids, the `Position` component store is
an association list (one entry per entity that has a `Position`), and each
per-frame system (`handle_input`, `movement`, `game_over`, `eater`, `grow`)
becomes a pure function on a `World` record. Events within a frame are
modelled as explicit values threaded between the systems, matching the
strictly chained schedule `(handle_input, movement, game_over, eater, grow)`
installed by `SnakePlugin::build`.
-/

set_option autoImplicit false

namespace Slither

/-- `Direction` from `snake.rs`: `enum Direction { Left, Up, Right, Down }`. -/
inductive Direction where
  | Left
  | Up
  | Right
  | Down
deriving DecidableEq, Repr

/-- `Direction::opposite` from `snake.rs`. -/
def Direction.opposite : Direction → Direction
  | .Left => .Right
  | .Up => .Down
  | .Right => .Left
  | .Down => .Up

/-- `Position` from `arena.rs`: an `i32` pair. Modelled with unbounded `Int`;
none of the verified paths can overflow an `i32` within the 10×10 arena. -/
structure Pos where
  x : Int
  y : Int
deriving DecidableEq, Repr

/-- `arena::WIDTH` is `10.` (an `f32`). The only use in the core is the
comparison `head_pos.x as f32 >= WIDTH`; since rounding `i32 → f32` is
monotone and `10.0` is exactly representable, that float comparison holds
exactly when the integer comparison `x ≥ 10` holds, so the bound is embedded
as the integer `10`. -/
def WIDTH : Int := 10

/-- `arena::HEIGHT` is `10.` (an `f32`); embedded as the integer `10` for the
same reason as `WIDTH`. -/
def HEIGHT : Int := 10

/-- The eight physical key bindings consumed by `handle_input`. -/
inductive KeyCode where
  | ArrowLeft
  | ArrowRight
  | ArrowDown
  | ArrowUp
  | KeyA
  | KeyD
  | KeyS
  | KeyW
deriving DecidableEq, Repr

/-- The fixed priority-ordered key array scanned by `handle_input`
(`[ArrowLeft, ArrowRight, ArrowDown, ArrowUp, KeyA, KeyD, KeyS, KeyW]`). -/
def keyPriority : List KeyCode :=
  [.ArrowLeft, .ArrowRight, .ArrowDown, .ArrowUp, .KeyA, .KeyD, .KeyS, .KeyW]

/-- The key → direction mapping inside `handle_input`. The source `match` has
a catch-all arm `_ => head.direction`, but it is unreachable: the scanned
array contains exactly these eight keys, all covered by the named arms. -/
def keyToDir : KeyCode → Direction
  | .ArrowLeft | .KeyA => .Left
  | .ArrowRight | .KeyD => .Right
  | .ArrowDown | .KeyS => .Down
  | .ArrowUp | .KeyW => .Up

/-- `handle_input` from `snake.rs`, for the single snake head: find the first
key of `keyPriority` currently pressed; its direction becomes the candidate,
applied only when it is not the exact opposite of the current direction. -/
def handle_input (pressed : KeyCode → Bool) (dir : Direction) : Direction :=
  match keyPriority.find? pressed with
  | some k => if keyToDir k ≠ dir.opposite then keyToDir k else dir
  | none => dir

/-- The `Position` component store: an association list from entity id to
position. ECS guarantees at most one `Position` per entity; lookup returns
the first (hence the unique) entry. -/
def lookup : List (Nat × Pos) → Nat → Option Pos
  | [], _ => none
  | q :: rest, e => if q.1 = e then some q.2 else lookup rest e

/-- Write an entity's `Position` component (the effect of a successful
`positions.get_mut(e)` followed by an assignment). If the entity has no
`Position` entry — the `get_mut` `Err` case — nothing is written. -/
def setPos (ps : List (Nat × Pos)) (e : Nat) (p : Pos) : List (Nat × Pos) :=
  ps.map (fun q => if q.1 = e then (e, p) else q)

/-- The ECS world state that the snake systems read and write:
`headEntity`/`headDir` model the single `SnakeHead` entity and its component,
`segments` the `SnakeSegments` resource (chain order, head entity first),
`segMarked` the set of entities carrying the `SnakeSegment` component (the
chain minus the head, in spawn order), `food` the entities carrying the
`Food` component, `positions` the `Position` component store, and
`lastTail` the `LastTailPosition` resource. -/
structure World where
  headEntity : Nat
  headDir : Direction
  segments : List Nat
  segMarked : List Nat
  food : List Nat
  positions : List (Nat × Pos)
  lastTail : Option Pos
deriving DecidableEq, Repr

/-- One step of the head offset `match` in `movement`:
`Left → x −= 1, Up → y += 1, Right → x += 1, Down → y −= 1`. -/
def stepDir (d : Direction) (p : Pos) : Pos :=
  match d with
  | .Left => ⟨p.x - 1, p.y⟩
  | .Up => ⟨p.x, p.y + 1⟩
  | .Right => ⟨p.x + 1, p.y⟩
  | .Down => ⟨p.x, p.y - 1⟩

/-- The boundary test in `movement`:
`x < 0 || y < 0 || x as f32 >= WIDTH || y as f32 >= HEIGHT`
(the float casts are exact here, see `WIDTH`). -/
def outOfBounds (p : Pos) : Bool :=
  p.x < 0 || p.y < 0 || decide (p.x ≥ WIDTH) || decide (p.y ≥ HEIGHT)

/-- The body-shift loop of `movement`: each `(pos, segment)` pair writes the
pre-shift snapshot position `pos` into `segment`'s `Position` component, in
iteration order. -/
def shiftFold (ps : List (Nat × Pos)) (pairs : List (Pos × Nat)) : List (Nat × Pos) :=
  pairs.foldl (fun acc pr => setPos acc pr.2 pr.1) ps

/-- The pre-shift snapshot taken at the top of `movement`:
`segments.iter().filter_map(|e| positions.get_mut(*e).ok().map(|p| *p))`. -/
def chainSnapshot (w : World) : List Pos :=
  w.segments.filterMap (fun e => lookup w.positions e)

/-- The body of `movement` from `snake.rs`, for a frame on which the movement
timer fired (`just_finished()` returned `true`) and the single head exists.
Returns the updated world and whether a `GameOverEvent` was sent (the event
may be sent twice in the source — once per collision kind — but readers only
test presence, so a `Bool` is faithful). Mirrors the source exactly:
snapshot, length-mismatch early return, head offset, boundary check,
self-collision check against the full snapshot, body shift from the
snapshot, and `LastTailPosition` update from the snapshot's last element. -/
def movementTick (w : World) : World × Bool :=
  let snapshot := chainSnapshot w
  if snapshot.length ≠ w.segments.length then (w, false)
  else
    let hd :=
      match lookup w.positions w.headEntity with
      | some hp =>
        let hp2 := stepDir w.headDir hp
        (setPos w.positions w.headEntity hp2,
          outOfBounds hp2 || decide (hp2 ∈ snapshot))
      | none => (w.positions, false)
    let ps2 := shiftFold hd.1 (snapshot.zip (w.segments.drop 1))
    let lt :=
      match snapshot.getLast? with
      | some p => some p
      | none => w.lastTail
    ({ w with positions := ps2, lastTail := lt }, hd.2)

/-- `spawn_snake` from `snake.rs`: replaces the `SnakeSegments` resource with
a fresh head entity `h` at `(3,3)` (direction `Up`, from
`SnakeHead::default()`) followed by one fresh body segment `s` at `(3,2)`
spawned through `spawn_segment`. -/
def spawn_snake (w : World) (h s : Nat) : World :=
  { w with
    headEntity := h
    headDir := Direction.Up
    segments := [h, s]
    segMarked := w.segMarked ++ [s]
    positions := w.positions ++ [(h, ⟨3, 3⟩), (s, ⟨3, 2⟩)] }

/-- `game_over` from `snake.rs`, with `fired` telling whether a
`GameOverEvent` was read this frame: despawn every entity carrying `Food`,
`SnakeHead` or `SnakeSegment` (removing their `Position` components with
them), then respawn through `spawn_snake` with fresh entity ids `h`, `s`.
The `LastTailPosition` resource is not touched. -/
def game_overSys (fired : Bool) (h s : Nat) (w : World) : World :=
  if fired then
    let doomed := w.food ++ [w.headEntity] ++ w.segMarked
    spawn_snake
      { w with
        food := []
        segMarked := []
        positions := w.positions.filter (fun q => decide (q.1 ∉ doomed)) }
      h s
  else w

/-- `eater` from `snake.rs`: for the head position, despawn every food entity
whose position equals it and send one `GrowthEvent` per hit. Returns the
updated world and the number of `GrowthEvent`s sent. -/
def eaterSys (w : World) : World × Nat :=
  match lookup w.positions w.headEntity with
  | some hp =>
    let hits := w.food.filter (fun f => lookup w.positions f == some hp)
    ({ w with
        food := w.food.filter (fun f => !(lookup w.positions f == some hp))
        positions := w.positions.filter (fun q => decide (q.1 ∉ hits)) },
      hits.length)
  | none => (w, 0)

/-- `grow` from `snake.rs`: if at least one `GrowthEvent` was read
(`growth_reader.read().next().is_some()`) and `LastTailPosition` holds a
value, spawn one segment entity `g` there (via `spawn_segment`) and push it
onto the `SnakeSegments` resource. Note the guard tests only event
*presence*: all queued events are drained but one segment at most is
appended. -/
def growSys (hasGrowthEvent : Bool) (g : Nat) (w : World) : World :=
  if hasGrowthEvent then
    match w.lastTail with
    | some p =>
      { w with
        segments := w.segments ++ [g]
        segMarked := w.segMarked ++ [g]
        positions := w.positions ++ [(g, p)] }
    | none => w
  else w

/-- One `Update` frame in schedule order
`(handle_input, movement, game_over, eater, grow).chain()`, with `fired`
telling whether the movement timer fired this frame and `h`, `s`, `g` the
fresh entity ids used by the (at most) three spawns. Commands are flushed
between chained systems, so sequential composition is faithful. -/
def updateFrame (pressed : KeyCode → Bool) (fired : Bool) (h s g : Nat)
    (w : World) : World :=
  let w0 := { w with headDir := handle_input pressed w.headDir }
  let mv := if fired then movementTick w0 else (w0, false)
  let w2 := game_overSys mv.2 h s mv.1
  let et := eaterSys w2
  growSys (decide (0 < et.2)) g et.1

/-- The world before `Startup`: the resources inserted by
`SnakePlugin::build` are at their defaults (`SnakeSegments` empty,
`LastTailPosition` none) and no entity exists. `headEntity`/`headDir` are
placeholders — no `SnakeHead` entity exists yet; `Startup` runs
`spawn_snake`, which sets both. -/
def emptyWorld : World :=
  { headEntity := 0
    headDir := Direction.Up
    segments := []
    segMarked := []
    food := []
    positions := []
    lastTail := none }

/-- Chain-lifecycle well-formedness maintained by `spawn_snake` and `grow`:
the `SnakeSegments` resource is nonempty, starts with the head entity,
holds pairwise-distinct entity ids, and every listed entity has a resolvable
`Position` component. -/
def WF (w : World) : Prop :=
  w.segments ≠ [] ∧
  w.segments.head? = some w.headEntity ∧
  w.segments.Nodup ∧
  ∀ e ∈ w.segments, (lookup w.positions e).isSome

instance (w : World) : Decidable (WF w) := by
  unfold WF; infer_instance

/-! ## Component-store lemmas -/

theorem lookup_setPos_ne {ps : List (Nat × Pos)} {e e' : Nat} {p : Pos}
    (h : e ≠ e') : lookup (setPos ps e' p) e = lookup ps e := by
  induction ps with
  | nil => rfl
  | cons q rest ih =>
    by_cases hq : q.1 = e'
    · simp only [setPos, List.map_cons, if_pos hq, lookup]
      rw [if_neg (fun he : e' = e => h he.symm),
        if_neg (fun hqe : q.1 = e => h (hqe.symm.trans hq))]
      exact ih
    · simp only [setPos, List.map_cons, if_neg hq, lookup]
      by_cases hqe : q.1 = e
      · rw [if_pos hqe, if_pos hqe]
      · rw [if_neg hqe, if_neg hqe]
        exact ih

theorem lookup_setPos_self {ps : List (Nat × Pos)} {e : Nat} {p : Pos}
    (h : (lookup ps e).isSome) : lookup (setPos ps e p) e = some p := by
  induction ps with
  | nil => simp [lookup] at h
  | cons q rest ih =>
    by_cases hq : q.1 = e
    · simp [setPos, List.map_cons, if_pos hq, lookup]
    · simp only [setPos, List.map_cons, if_neg hq, lookup, if_neg hq]
      simp only [lookup, if_neg hq] at h
      exact ih h

theorem lookup_setPos_none {ps : List (Nat × Pos)} {e e' : Nat} {p : Pos}
    (h : lookup ps e = none) : lookup (setPos ps e' p) e = none := by
  induction ps with
  | nil => rfl
  | cons q rest ih =>
    simp only [lookup] at h
    by_cases hqe : q.1 = e
    · rw [if_pos hqe] at h
      cases h
    · rw [if_neg hqe] at h
      by_cases hq : q.1 = e'
      · simp only [setPos, List.map_cons, if_pos hq, lookup]
        rw [if_neg (fun he : e' = e => hqe (hq.trans he))]
        exact ih h
      · simp only [setPos, List.map_cons, if_neg hq, lookup, if_neg hqe]
        exact ih h

theorem lookup_setPos_isSome {ps : List (Nat × Pos)} {e e' : Nat} {p : Pos} :
    (lookup (setPos ps e' p) e).isSome = (lookup ps e).isSome := by
  by_cases h : e = e'
  · subst h
    cases hcase : lookup ps e with
    | none => rw [lookup_setPos_none hcase]
    | some v => rw [lookup_setPos_self (by rw [hcase]; rfl)]; rfl
  · rw [lookup_setPos_ne h]

theorem lookup_shiftFold_notMem {pairs : List (Pos × Nat)} {ps : List (Nat × Pos)} {e : Nat}
    (h : e ∉ pairs.map Prod.snd) : lookup (shiftFold ps pairs) e = lookup ps e := by
  induction pairs generalizing ps with
  | nil => rfl
  | cons pr rest ih =>
    simp only [List.map_cons, List.mem_cons, not_or] at h
    simp only [shiftFold, List.foldl_cons]
    rw [show (List.foldl (fun acc pr => setPos acc pr.2 pr.1) (setPos ps pr.2 pr.1) rest)
        = shiftFold (setPos ps pr.2 pr.1) rest from rfl]
    rw [ih h.2, lookup_setPos_ne h.1]

theorem lookup_shiftFold_isSome {pairs : List (Pos × Nat)} {ps : List (Nat × Pos)} {e : Nat} :
    (lookup (shiftFold ps pairs) e).isSome = (lookup ps e).isSome := by
  induction pairs generalizing ps with
  | nil => rfl
  | cons pr rest ih =>
    simp only [shiftFold, List.foldl_cons]
    rw [show (List.foldl (fun acc pr => setPos acc pr.2 pr.1) (setPos ps pr.2 pr.1) rest)
        = shiftFold (setPos ps pr.2 pr.1) rest from rfl]
    rw [ih, lookup_setPos_isSome]

theorem lookup_shiftFold_none {pairs : List (Pos × Nat)} {ps : List (Nat × Pos)} {e : Nat}
    (h : lookup ps e = none) : lookup (shiftFold ps pairs) e = none := by
  have := @lookup_shiftFold_isSome pairs ps e
  rw [h] at this
  simpa using this

theorem lookup_shiftFold_mem {pairs : List (Pos × Nat)} {ps : List (Nat × Pos)} {p : Pos} {e : Nat}
    (hnd : (pairs.map Prod.snd).Nodup) (hmem : (p, e) ∈ pairs)
    (hk : (lookup ps e).isSome) : lookup (shiftFold ps pairs) e = some p := by
  induction pairs generalizing ps with
  | nil => cases hmem
  | cons pr rest ih =>
    simp only [List.map_cons, List.nodup_cons] at hnd
    simp only [shiftFold, List.foldl_cons]
    rw [show (List.foldl (fun acc pr => setPos acc pr.2 pr.1) (setPos ps pr.2 pr.1) rest)
        = shiftFold (setPos ps pr.2 pr.1) rest from rfl]
    rcases List.mem_cons.mp hmem with heq | hrest
    · cases heq
      rw [lookup_shiftFold_notMem hnd.1, lookup_setPos_self hk]
    · exact ih hnd.2 hrest (by rw [lookup_setPos_isSome]; exact hk)

/-! ## Snapshot lemmas -/

theorem filterMap_lookup_get? (ps : List (Nat × Pos)) (segs : List Nat)
    (h : ∀ e ∈ segs, (lookup ps e).isSome) (i : Nat) :
    (segs.filterMap (fun e => lookup ps e)).get? i = (segs.get? i).bind (fun e => lookup ps e) := by
  induction segs generalizing i with
  | nil => simp
  | cons e t ih =>
    obtain ⟨p, hple⟩ := Option.isSome_iff_exists.mp (h e (List.mem_cons_self e t))
    have ht : ∀ x ∈ t, (lookup ps x).isSome := fun x hx => h x (List.mem_cons_of_mem e hx)
    cases i with
    | zero => simp [List.filterMap_cons, hple]
    | succ n => simpa [List.filterMap_cons, hple] using ih ht n

theorem filterMap_lookup_length (ps : List (Nat × Pos)) (segs : List Nat)
    (h : ∀ e ∈ segs, (lookup ps e).isSome) :
    (segs.filterMap (fun e => lookup ps e)).length = segs.length := by
  induction segs with
  | nil => rfl
  | cons e t ih =>
    obtain ⟨p, hple⟩ := Option.isSome_iff_exists.mp (h e (List.mem_cons_self e t))
    have ht : ∀ x ∈ t, (lookup ps x).isSome := fun x hx => h x (List.mem_cons_of_mem e hx)
    simp [List.filterMap_cons, hple, ih ht]

theorem chainSnapshot_length (w : World) (hwf : WF w) :
    (chainSnapshot w).length = w.segments.length :=
  filterMap_lookup_length w.positions w.segments hwf.2.2.2

/-- Under well-formedness and with the head's position resolved to `hp`, a
fired `movement` tick computes exactly: head stepped one cell, body shifted
from the pre-shift snapshot, tail snapshot recorded, and a game-over event
iff the new head is out of bounds or hits the snapshot. -/
theorem movementTick_run (w : World) (hp : Pos) (hwf : WF w)
    (hhp : lookup w.positions w.headEntity = some hp) :
    movementTick w =
      ({ w with
          positions := shiftFold (setPos w.positions w.headEntity (stepDir w.headDir hp))
            ((chainSnapshot w).zip (w.segments.drop 1))
          lastTail :=
            match (chainSnapshot w).getLast? with
            | some p => some p
            | none => w.lastTail },
        outOfBounds (stepDir w.headDir hp)
          || decide (stepDir w.headDir hp ∈ chainSnapshot w)) := by
  have hlen := chainSnapshot_length w hwf
  simp only [movementTick, hhp, hlen, ne_eq, not_true_eq_false, if_false]

theorem WF_segments_cons (w : World) (hwf : WF w) :
    w.segments = w.headEntity :: w.segments.tail := by
  obtain ⟨hne, hhd, -, -⟩ := hwf
  cases hseg : w.segments with
  | nil => exact absurd hseg hne
  | cons a t =>
    rw [hseg] at hhd
    simp only [List.head?_cons, Option.some.injEq] at hhd
    simp [hhd]

theorem headEntity_mem_segments (w : World) (hwf : WF w) :
    w.headEntity ∈ w.segments := by
  rw [WF_segments_cons w hwf]
  exact List.mem_cons_self _ _

theorem head_not_mem_drop (w : World) (hwf : WF w) :
    w.headEntity ∉ w.segments.drop 1 := by
  have hnd := hwf.2.2.1
  rw [WF_segments_cons w hwf] at hnd ⊢
  simpa using (List.nodup_cons.mp hnd).1

theorem pairs_map_snd (w : World) (hwf : WF w) :
    ((chainSnapshot w).zip (w.segments.drop 1)).map Prod.snd = w.segments.drop 1 := by
  apply List.map_snd_zip
  rw [chainSnapshot_length w hwf, List.length_drop]
  exact Nat.sub_le _ _

theorem lookup_append_left_none {a b : List (Nat × Pos)} {e : Nat}
    (h : lookup a e = none) : lookup (a ++ b) e = lookup b e := by
  induction a with
  | nil => rfl
  | cons q rest ih =>
    simp only [lookup] at h
    by_cases hq : q.1 = e
    · rw [if_pos hq] at h
      cases h
    · rw [if_neg hq] at h
      simp only [List.cons_append, lookup, if_neg hq]
      exact ih h

theorem lookup_filter_none {ps : List (Nat × Pos)} {f : Nat × Pos → Bool} {e : Nat}
    (h : lookup ps e = none) : lookup (ps.filter f) e = none := by
  induction ps with
  | nil => rfl
  | cons q rest ih =>
    simp only [lookup] at h
    by_cases hq : q.1 = e
    · rw [if_pos hq] at h
      cases h
    · rw [if_neg hq] at h
      simp only [List.filter_cons]
      by_cases hf : f q
      · simp only [hf, if_true, lookup, if_neg hq]
        exact ih h
      · simp only [hf, if_false]
        exact ih h

theorem lookup_filter_out {ps : List (Nat × Pos)} {f : Nat × Pos → Bool} {e : Nat}
    (h : ∀ p : Pos, f (e, p) = false) : lookup (ps.filter f) e = none := by
  induction ps with
  | nil => rfl
  | cons q rest ih =>
    simp only [List.filter_cons]
    by_cases hf : f q
    · have hq : q.1 ≠ e := by
        intro hq
        have : f q = false := by
          have hqp : q = (e, q.2) := by
            cases q
            simp_all
          rw [hqp]
          exact h q.2
        rw [this] at hf
        cases hf
      simp only [hf, if_true, lookup, if_neg hq]
      exact ih
    · simp only [hf, if_false]
      exact ih

theorem eaterSys_segments (w : World) : (eaterSys w).1.segments = w.segments := by
  unfold eaterSys
  cases lookup w.positions w.headEntity <;> rfl

theorem eaterSys_lastTail (w : World) : (eaterSys w).1.lastTail = w.lastTail := by
  unfold eaterSys
  cases lookup w.positions w.headEntity <;> rfl

theorem eaterSys_count_of_no_food (w : World) (hf : w.food = []) : (eaterSys w).2 = 0 := by
  unfold eaterSys
  cases lookup w.positions w.headEntity <;> simp [hf]

/-! ## Claim theorems: movement -/

/-- C1: on every fired movement tick, the head's new position is its previous
position offset by exactly one grid cell according to the current direction —
Left decrements x, Right increments x, Up increments y, Down decrements y
(inverted vertical axis). -/
theorem head_moves_one_cell (w : World) (hp : Pos) (hwf : WF w)
    (hhp : lookup w.positions w.headEntity = some hp) :
    lookup (movementTick w).1.positions w.headEntity =
      some (match w.headDir with
        | Direction.Left => ⟨hp.x - 1, hp.y⟩
        | Direction.Right => ⟨hp.x + 1, hp.y⟩
        | Direction.Up => ⟨hp.x, hp.y + 1⟩
        | Direction.Down => ⟨hp.x, hp.y - 1⟩) := by
  rw [movementTick_run w hp hwf hhp]
  have hne : w.headEntity ∉ ((chainSnapshot w).zip (w.segments.drop 1)).map Prod.snd := by
    rw [pairs_map_snd w hwf]
    exact head_not_mem_drop w hwf
  show lookup (shiftFold (setPos w.positions w.headEntity (stepDir w.headDir hp))
      ((chainSnapshot w).zip (w.segments.drop 1))) w.headEntity = _
  rw [lookup_shiftFold_notMem hne, lookup_setPos_self (by rw [hhp]; rfl)]
  cases w.headDir <;> rfl

/-- C1 witness: start chain `[head(3,3), seg(3,2)]`, direction `Up`; the
fired tick puts the head at `(3,4)`. -/
theorem head_moves_one_cell_witness :
    lookup (movementTick
      ⟨0, Direction.Up, [0, 1], [1], [], [(0, ⟨3, 3⟩), (1, ⟨3, 2⟩)], none⟩).1.positions 0 =
      some ⟨3, 4⟩ :=
  head_moves_one_cell
    ⟨0, Direction.Up, [0, 1], [1], [], [(0, ⟨3, 3⟩), (1, ⟨3, 2⟩)], none⟩
    ⟨3, 3⟩ (by decide) (by decide)

/-- C2: after any fired tick, the body segment at chain index `i+1` occupies
exactly the position the chain element at index `i` held immediately before
that tick (the pre-shift snapshot), so updates never cascade within a tick. -/
theorem body_follows_predecessor (w : World) (i e0 e : Nat) (hwf : WF w)
    (h0 : w.segments.get? i = some e0) (h1 : w.segments.get? (i + 1) = some e) :
    lookup (movementTick w).1.positions e = lookup w.positions e0 := by
  obtain ⟨hp, hhp⟩ :=
    Option.isSome_iff_exists.mp (hwf.2.2.2 _ (headEntity_mem_segments w hwf))
  rw [movementTick_run w hp hwf hhp]
  have he0mem : e0 ∈ w.segments := List.get?_mem h0
  have hemem : e ∈ w.segments := List.get?_mem h1
  obtain ⟨p0, hp0⟩ := Option.isSome_iff_exists.mp (hwf.2.2.2 _ he0mem)
  have hsnap : (chainSnapshot w).get? i = some p0 := by
    rw [chainSnapshot, filterMap_lookup_get? _ _ hwf.2.2.2 i, h0]
    simpa using hp0
  have hdrop : (w.segments.drop 1).get? i = some e := by
    rw [List.get?_drop w.segments 1 i, Nat.add_comm 1 i]
    exact h1
  have hpair : ((chainSnapshot w).zip (w.segments.drop 1)).get? i = some (p0, e) :=
    (List.get?_zip_eq_some _ _ _ _).mpr ⟨hsnap, hdrop⟩
  have hnd : (((chainSnapshot w).zip (w.segments.drop 1)).map Prod.snd).Nodup := by
    rw [pairs_map_snd w hwf]
    exact (List.drop_sublist 1 w.segments).nodup hwf.2.2.1
  show lookup (shiftFold (setPos w.positions w.headEntity (stepDir w.headDir hp))
      ((chainSnapshot w).zip (w.segments.drop 1))) e = _
  rw [lookup_shiftFold_mem hnd (List.get?_mem hpair)
      (by rw [lookup_setPos_isSome]; exact hwf.2.2.2 _ hemem), hp0]

/-- C2 witness: start chain `[head(3,3), seg(3,2)]`, direction `Up`; after
the tick the segment sits at `(3,3)`, the head's pre-tick position. -/
theorem body_follows_predecessor_witness :
    lookup (movementTick
      ⟨0, Direction.Up, [0, 1], [1], [], [(0, ⟨3, 3⟩), (1, ⟨3, 2⟩)], none⟩).1.positions 1 =
      lookup [((0 : Nat), (⟨3, 3⟩ : Pos)), (1, ⟨3, 2⟩)] 0 :=
  body_follows_predecessor
    ⟨0, Direction.Up, [0, 1], [1], [], [(0, ⟨3, 3⟩), (1, ⟨3, 2⟩)], none⟩
    0 0 1 (by decide) (by decide) (by decide)

/-- C3: on a fired tick, a game-over event is emitted iff the new head
position is out of bounds (`x < 0`, `y < 0`, `x ≥ WIDTH`, or `y ≥ HEIGHT`) or
equals some position in the pre-shift snapshot of the full chain; the head's
own previous position is part of that check set (first conjunct). -/
theorem game_over_event_iff (w : World) (hp : Pos) (hwf : WF w)
    (hhp : lookup w.positions w.headEntity = some hp) :
    hp ∈ chainSnapshot w ∧
      ((movementTick w).2 = true ↔
        outOfBounds (stepDir w.headDir hp) = true ∨
          stepDir w.headDir hp ∈ chainSnapshot w) := by
  constructor
  · exact List.mem_filterMap.mpr ⟨w.headEntity, headEntity_mem_segments w hwf, hhp⟩
  · rw [movementTick_run w hp hwf hhp]
    show (outOfBounds (stepDir w.headDir hp)
      || decide (stepDir w.headDir hp ∈ chainSnapshot w)) = true ↔ _
    simp [Bool.or_eq_true, decide_eq_true_iff]

/-- C3 witness: head at `(3,9)` moving `Up` leaves the arena (`y = 10 ≥
HEIGHT`), so the tick emits a game-over event; and the head's old position is
in the snapshot check set. -/
theorem game_over_event_iff_witness :
    (⟨3, 9⟩ : Pos) ∈ chainSnapshot
        ⟨0, Direction.Up, [0, 1], [1], [], [(0, ⟨3, 9⟩), (1, ⟨3, 8⟩)], none⟩ ∧
      ((movementTick
          ⟨0, Direction.Up, [0, 1], [1], [], [(0, ⟨3, 9⟩), (1, ⟨3, 8⟩)], none⟩).2 = true ↔
        outOfBounds (stepDir Direction.Up ⟨3, 9⟩) = true ∨
          stepDir Direction.Up ⟨3, 9⟩ ∈ chainSnapshot
            ⟨0, Direction.Up, [0, 1], [1], [], [(0, ⟨3, 9⟩), (1, ⟨3, 8⟩)], none⟩) :=
  game_over_event_iff
    ⟨0, Direction.Up, [0, 1], [1], [], [(0, ⟨3, 9⟩), (1, ⟨3, 8⟩)], none⟩
    ⟨3, 9⟩ (by decide) (by decide)

/-- C9: on a fired tick, if the number of resolvable segment positions does
not equal the chain's recorded length, the entire tick is aborted with no
mutation at all — the returned world is exactly the input world (every chain
position, head position and pending-tail value included) and no game-over
event is emitted. -/
theorem consistency_fault_aborts_tick (w : World)
    (h : (chainSnapshot w).length ≠ w.segments.length) :
    movementTick w = (w, false) := by
  simp only [movementTick]
  rw [if_pos h]

/-- C9 witness: a chain recording two entities of which only one has a
resolvable position; the fired tick is a no-op and emits nothing. -/
theorem consistency_fault_aborts_tick_witness :
    (chainSnapshot ⟨0, Direction.Up, [0, 1], [1], [], [(0, ⟨3, 3⟩)], none⟩).length ≠
        (World.segments ⟨0, Direction.Up, [0, 1], [1], [], [(0, ⟨3, 3⟩)], none⟩).length ∧
      movementTick ⟨0, Direction.Up, [0, 1], [1], [], [(0, ⟨3, 3⟩)], none⟩ =
        (⟨0, Direction.Up, [0, 1], [1], [], [(0, ⟨3, 3⟩)], none⟩, false) :=
  ⟨by decide,
    consistency_fault_aborts_tick
      ⟨0, Direction.Up, [0, 1], [1], [], [(0, ⟨3, 3⟩)], none⟩ (by decide)⟩

/-! ## Claim theorems: input handling -/

/-- C4: in every input-processing pass, if the candidate direction selected
from the pressed keys (the first pressed key in priority order) is the exact
opposite of the current direction, the direction is unchanged; and if no
directional input is active, the direction is also unchanged. -/
theorem opposite_direction_suppressed (pressed : KeyCode → Bool) (d : Direction) :
    (∀ k, keyPriority.find? pressed = some k → keyToDir k = d.opposite →
      handle_input pressed d = d) ∧
    (keyPriority.find? pressed = none → handle_input pressed d = d) := by
  constructor
  · intro k hk hop
    simp [handle_input, hk, hop]
  · intro hnone
    simp [handle_input, hnone]

/-- C4 witness: current direction `Up`, only `ArrowDown` held — the candidate
`Down` is the exact opposite, so the direction stays `Up`. -/
theorem opposite_direction_suppressed_witness :
    handle_input (fun k => k == KeyCode.ArrowDown) Direction.Up = Direction.Up :=
  (opposite_direction_suppressed (fun k => k == KeyCode.ArrowDown) Direction.Up).1
    KeyCode.ArrowDown (by decide) (by decide)

/-! ## Claim theorems: growth -/

/-- C5: if a growth event is queued on tick `T`, the chain length after the
growth application equals the chain length before tick `T` plus one, and the
appended segment's position equals the `LastTailPosition` computed during
tick `T` — the pre-shift position of the last chain element; if no growth
event is queued, nothing changes. -/
theorem growth_round_trip (w : World) (g : Nat) (tp : Pos) (hwf : WF w)
    (hg : lookup w.positions g = none)
    (htp : (chainSnapshot w).getLast? = some tp) :
    (growSys true g (movementTick w).1).segments.length = w.segments.length + 1 ∧
    (growSys true g (movementTick w).1).segments.getLast? = some g ∧
    lookup (growSys true g (movementTick w).1).positions g = some tp ∧
    growSys false g (movementTick w).1 = (movementTick w).1 := by
  obtain ⟨hp, hhp⟩ :=
    Option.isSome_iff_exists.mp (hwf.2.2.2 _ (headEntity_mem_segments w hwf))
  rw [movementTick_run w hp hwf hhp]
  refine ⟨?_, ?_, ?_, rfl⟩
  · simp [growSys, htp]
  · simp [growSys, htp]
  · show lookup (growSys true g
      ⟨w.headEntity, w.headDir, w.segments, w.segMarked, w.food,
        shiftFold (setPos w.positions w.headEntity (stepDir w.headDir hp))
          ((chainSnapshot w).zip (w.segments.drop 1)),
        match (chainSnapshot w).getLast? with
        | some p => some p
        | none => w.lastTail⟩).positions g = some tp
    rw [htp]
    show lookup (shiftFold (setPos w.positions w.headEntity (stepDir w.headDir hp))
        ((chainSnapshot w).zip (w.segments.drop 1)) ++ [(g, tp)]) g = some tp
    rw [lookup_append_left_none (lookup_shiftFold_none (lookup_setPos_none hg))]
    simp [lookup]

/-- C5 witness: start chain `[head(3,3), seg(3,2)]` moving `Up`; the tick
records tail snapshot `(3,2)`, and a queued growth event appends segment `5`
there, raising the chain length from 2 to 3. -/
theorem growth_round_trip_witness :
    (growSys true 5 (movementTick
        ⟨0, Direction.Up, [0, 1], [1], [], [(0, ⟨3, 3⟩), (1, ⟨3, 2⟩)], none⟩).1).segments.length
        = 3 ∧
      (growSys true 5 (movementTick
        ⟨0, Direction.Up, [0, 1], [1], [], [(0, ⟨3, 3⟩), (1, ⟨3, 2⟩)], none⟩).1).segments.getLast?
        = some 5 ∧
      lookup (growSys true 5 (movementTick
        ⟨0, Direction.Up, [0, 1], [1], [], [(0, ⟨3, 3⟩), (1, ⟨3, 2⟩)], none⟩).1).positions 5
        = some ⟨3, 2⟩ ∧
      growSys false 5 (movementTick
        ⟨0, Direction.Up, [0, 1], [1], [], [(0, ⟨3, 3⟩), (1, ⟨3, 2⟩)], none⟩).1
        = (movementTick
        ⟨0, Direction.Up, [0, 1], [1], [], [(0, ⟨3, 3⟩), (1, ⟨3, 2⟩)], none⟩).1 :=
  growth_round_trip
    ⟨0, Direction.Up, [0, 1], [1], [], [(0, ⟨3, 3⟩), (1, ⟨3, 2⟩)], none⟩
    5 ⟨3, 2⟩ (by decide) (by decide) (by decide)

/-! ## Claim theorems: game over and reset -/

/-- Unfolding of a handled `GameOverEvent`: despawn food, head and marked
segments, then respawn the canonical two-element chain. -/
theorem game_overSys_run (h s : Nat) (w : World) :
    game_overSys true h s w =
      { headEntity := h
        headDir := Direction.Up
        segments := [h, s]
        segMarked := [s]
        food := []
        positions := w.positions.filter
            (fun q => decide (q.1 ∉ w.food ++ [w.headEntity] ++ w.segMarked))
            ++ [(h, ⟨3, 3⟩), (s, ⟨3, 2⟩)]
        lastTail := w.lastTail } := rfl

/-- C6: whenever a game-over event has been emitted, the handler destroys
every current body-chain entity and the head and reconstructs the canonical
start configuration — a chain of length 2, head at `(3,3)`, one segment at
`(3,2)`, direction `Up` — identical to the state `spawn_snake` produces at
initial game start. `h`, `s` are the fresh entity ids of the respawn. -/
theorem reset_reconstructs_canonical_start (w : World) (h s : Nat)
    (hh : lookup w.positions h = none) (hs : lookup w.positions s = none)
    (hhs : h ≠ s) :
    (game_overSys true h s w).segments = [h, s] ∧
    (game_overSys true h s w).headDir = Direction.Up ∧
    chainSnapshot (game_overSys true h s w) = [⟨3, 3⟩, ⟨3, 2⟩] ∧
    (∀ e, e ∈ w.headEntity :: w.segMarked → e ≠ h → e ≠ s →
      lookup (game_overSys true h s w).positions e = none) ∧
    (game_overSys true h s w).segments = (spawn_snake emptyWorld h s).segments ∧
    (game_overSys true h s w).headDir = (spawn_snake emptyWorld h s).headDir ∧
    chainSnapshot (game_overSys true h s w) = chainSnapshot (spawn_snake emptyWorld h s) := by
  have hph : lookup ((game_overSys true h s w).positions) h = some ⟨3, 3⟩ := by
    show lookup ((w.positions.filter
        (fun q => decide (q.1 ∉ w.food ++ [w.headEntity] ++ w.segMarked)))
        ++ [(h, ⟨3, 3⟩), (s, ⟨3, 2⟩)]) h = some ⟨3, 3⟩
    rw [lookup_append_left_none (lookup_filter_none hh)]
    simp [lookup]
  have hps : lookup ((game_overSys true h s w).positions) s = some ⟨3, 2⟩ := by
    show lookup ((w.positions.filter
        (fun q => decide (q.1 ∉ w.food ++ [w.headEntity] ++ w.segMarked)))
        ++ [(h, ⟨3, 3⟩), (s, ⟨3, 2⟩)]) s = some ⟨3, 2⟩
    rw [lookup_append_left_none (lookup_filter_none hs)]
    simp [lookup, hhs]
  have hsnap : chainSnapshot (game_overSys true h s w) = [⟨3, 3⟩, ⟨3, 2⟩] := by
    show ([h, s].filterMap (fun e => lookup ((game_overSys true h s w).positions) e))
      = [⟨3, 3⟩, ⟨3, 2⟩]
    simp [List.filterMap_cons, hph, hps]
  have hsnap2 : chainSnapshot (spawn_snake emptyWorld h s) = [⟨3, 3⟩, ⟨3, 2⟩] := by
    simp [chainSnapshot, spawn_snake, emptyWorld, List.filterMap_cons, lookup, hhs]
  refine ⟨rfl, rfl, hsnap, ?_, rfl, rfl, hsnap.trans hsnap2.symm⟩
  intro e he heh hes
  have hedoom : e ∈ w.food ++ [w.headEntity] ++ w.segMarked := by
    rcases List.mem_cons.mp he with h1 | h2
    · simp [List.mem_append, h1]
    · simp [List.mem_append, h2]
  show lookup ((w.positions.filter
      (fun q => decide (q.1 ∉ w.food ++ [w.headEntity] ++ w.segMarked)))
      ++ [(h, ⟨3, 3⟩), (s, ⟨3, 2⟩)]) e = none
  rw [lookup_append_left_none
    (lookup_filter_out (fun p => decide_eq_false (not_not_intro hedoom)))]
  simp [lookup, Ne.symm heh, Ne.symm hes]

/-- C6 witness: the crashed world (head at `(3,10)`, out of bounds) is reset
with fresh entities 10 and 11; the result is the canonical start chain, and
the old head entity 0 is destroyed. -/
theorem reset_reconstructs_canonical_start_witness :
    (game_overSys true 10 11
        ⟨0, Direction.Up, [0, 1], [1], [], [(0, ⟨3, 10⟩), (1, ⟨3, 9⟩)], some ⟨3, 8⟩⟩).segments
      = [10, 11] ∧
    (game_overSys true 10 11
        ⟨0, Direction.Up, [0, 1], [1], [], [(0, ⟨3, 10⟩), (1, ⟨3, 9⟩)], some ⟨3, 8⟩⟩).headDir
      = Direction.Up ∧
    chainSnapshot (game_overSys true 10 11
        ⟨0, Direction.Up, [0, 1], [1], [], [(0, ⟨3, 10⟩), (1, ⟨3, 9⟩)], some ⟨3, 8⟩⟩)
      = [⟨3, 3⟩, ⟨3, 2⟩] ∧
    lookup (game_overSys true 10 11
        ⟨0, Direction.Up, [0, 1], [1], [], [(0, ⟨3, 10⟩), (1, ⟨3, 9⟩)], some ⟨3, 8⟩⟩).positions 0
      = none :=
  ⟨(reset_reconstructs_canonical_start
      ⟨0, Direction.Up, [0, 1], [1], [], [(0, ⟨3, 10⟩), (1, ⟨3, 9⟩)], some ⟨3, 8⟩⟩
      10 11 (by decide) (by decide) (by decide)).1,
    (reset_reconstructs_canonical_start
      ⟨0, Direction.Up, [0, 1], [1], [], [(0, ⟨3, 10⟩), (1, ⟨3, 9⟩)], some ⟨3, 8⟩⟩
      10 11 (by decide) (by decide) (by decide)).2.1,
    (reset_reconstructs_canonical_start
      ⟨0, Direction.Up, [0, 1], [1], [], [(0, ⟨3, 10⟩), (1, ⟨3, 9⟩)], some ⟨3, 8⟩⟩
      10 11 (by decide) (by decide) (by decide)).2.2.1,
    (reset_reconstructs_canonical_start
      ⟨0, Direction.Up, [0, 1], [1], [], [(0, ⟨3, 10⟩), (1, ⟨3, 9⟩)], some ⟨3, 8⟩⟩
      10 11 (by decide) (by decide) (by decide)).2.2.2.1 0 (by decide) (by decide) (by decide)⟩

/-- C10: when a game-over event is handled, every food entity in the world is
despawned along with the head and body segments — the reset clears all food
from the arena (`f ≠ h`/`f ≠ s` exclude id collision with the respawned
chain entities, which bevy's allocator guarantees). -/
theorem reset_despawns_all_food (w : World) (h s : Nat) :
    (game_overSys true h s w).food = [] ∧
    ∀ f, f ∈ w.food → f ≠ h → f ≠ s →
      lookup (game_overSys true h s w).positions f = none := by
  refine ⟨rfl, ?_⟩
  intro f hf hfh hfs
  have hfdoom : f ∈ w.food ++ [w.headEntity] ++ w.segMarked := by
    simp [List.mem_append, hf]
  show lookup ((w.positions.filter
      (fun q => decide (q.1 ∉ w.food ++ [w.headEntity] ++ w.segMarked)))
      ++ [(h, ⟨3, 3⟩), (s, ⟨3, 2⟩)]) f = none
  rw [lookup_append_left_none
    (lookup_filter_out (fun p => decide_eq_false (not_not_intro hfdoom)))]
  simp [lookup, Ne.symm hfh, Ne.symm hfs]

/-- C10 witness: a world with one food entity 7 at `(4,4)`; after the reset
the food list is empty and entity 7 has no position component left. -/
theorem reset_despawns_all_food_witness :
    (game_overSys true 10 11
        ⟨0, Direction.Up, [0, 1], [1], [7],
          [(0, ⟨3, 3⟩), (1, ⟨3, 2⟩), (7, ⟨4, 4⟩)], none⟩).food = [] ∧
    lookup (game_overSys true 10 11
        ⟨0, Direction.Up, [0, 1], [1], [7],
          [(0, ⟨3, 3⟩), (1, ⟨3, 2⟩), (7, ⟨4, 4⟩)], none⟩).positions 7 = none :=
  ⟨(reset_despawns_all_food
      ⟨0, Direction.Up, [0, 1], [1], [7],
        [(0, ⟨3, 3⟩), (1, ⟨3, 2⟩), (7, ⟨4, 4⟩)], none⟩ 10 11).1,
    (reset_despawns_all_food
      ⟨0, Direction.Up, [0, 1], [1], [7],
        [(0, ⟨3, 3⟩), (1, ⟨3, 2⟩), (7, ⟨4, 4⟩)], none⟩ 10 11).2
      7 (by decide) (by decide) (by decide)⟩

/-- C7 counterexample: `game_over` never touches the `LastTailPosition`
resource, so a pre-reset pending-tail value of `(5,5)` is still present after
the reset — contradicting "no stale pending-tail value survives the reset". -/
theorem pending_tail_survives_reset :
    (game_overSys true 10 11
        ⟨0, Direction.Up, [0, 1], [1], [], [(0, ⟨3, 3⟩), (1, ⟨3, 2⟩)], some ⟨5, 5⟩⟩).lastTail
      = some ⟨5, 5⟩ ∧
    (⟨0, Direction.Up, [0, 1], [1], [], [(0, ⟨3, 3⟩), (1, ⟨3, 2⟩)],
        some ⟨5, 5⟩⟩ : World).lastTail = some ⟨5, 5⟩ := by
  exact ⟨rfl, rfl⟩

/-- C7 amended: on a colliding pass, no growth from that pass is applied to
the freshly respawned chain — `eater` runs after `game_over` and all food has
been despawned, so no growth event is queued and the frame ends with exactly
the canonical chain `[h, s]` — but the pending-tail value is NOT discarded:
`LastTailPosition` retains the value written by the colliding tick's
movement across the reset. -/
theorem reset_discards_growth_retains_tail (pressed : KeyCode → Bool) (w : World)
    (h s g : Nat)
    (hgo : (movementTick { w with headDir := handle_input pressed w.headDir }).2 = true) :
    (updateFrame pressed true h s g w).segments = [h, s] ∧
    (updateFrame pressed true h s g w).lastTail =
      (movementTick { w with headDir := handle_input pressed w.headDir }).1.lastTail := by
  have hframe : updateFrame pressed true h s g w =
      growSys (decide (0 < (eaterSys (game_overSys true h s
          (movementTick { w with headDir := handle_input pressed w.headDir }).1)).2)) g
        (eaterSys (game_overSys true h s
          (movementTick { w with headDir := handle_input pressed w.headDir }).1)).1 := by
    show growSys (decide (0 < (eaterSys (game_overSys
        (movementTick { w with headDir := handle_input pressed w.headDir }).2 h s
        (movementTick { w with headDir := handle_input pressed w.headDir }).1)).2)) g
      (eaterSys (game_overSys
        (movementTick { w with headDir := handle_input pressed w.headDir }).2 h s
        (movementTick { w with headDir := handle_input pressed w.headDir }).1)).1 = _
    rw [hgo]
  have hnofood : (game_overSys true h s
      (movementTick { w with headDir := handle_input pressed w.headDir }).1).food = [] := rfl
  have hcount := eaterSys_count_of_no_food _ hnofood
  rw [hframe, hcount]
  rw [show (decide (0 < 0)) = false from rfl]
  rw [show ∀ x : World, growSys false g x = x from fun x => rfl]
  refine ⟨?_, ?_⟩
  · rw [eaterSys_segments]
    rfl
  · rw [eaterSys_lastTail]
    rfl

/-- C7 amended witness: head at `(3,9)` moves `Up` out of bounds with no key
held; the frame resets the chain to `[10, 11]` with no growth applied, while
the pending-tail value produced by the colliding tick is retained. -/
theorem reset_discards_growth_retains_tail_witness :
    (updateFrame (fun _ => false) true 10 11 12
        ⟨0, Direction.Up, [0, 1], [1], [], [(0, ⟨3, 9⟩), (1, ⟨3, 8⟩)], some ⟨3, 7⟩⟩).segments
      = [10, 11] ∧
    (updateFrame (fun _ => false) true 10 11 12
        ⟨0, Direction.Up, [0, 1], [1], [], [(0, ⟨3, 9⟩), (1, ⟨3, 8⟩)], some ⟨3, 7⟩⟩).lastTail
      = (movementTick
          { (⟨0, Direction.Up, [0, 1], [1], [], [(0, ⟨3, 9⟩), (1, ⟨3, 8⟩)],
              some ⟨3, 7⟩⟩ : World) with
            headDir := handle_input (fun _ => false)
              (World.headDir ⟨0, Direction.Up, [0, 1], [1], [],
                [(0, ⟨3, 9⟩), (1, ⟨3, 8⟩)], some ⟨3, 7⟩⟩) }).1.lastTail :=
  reset_discards_growth_retains_tail (fun _ => false)
    ⟨0, Direction.Up, [0, 1], [1], [], [(0, ⟨3, 9⟩), (1, ⟨3, 8⟩)], some ⟨3, 7⟩⟩
    10 11 12 (by decide)

/-! ## Claim theorems: food consumption -/

/-- C8 counterexample: two food entities (20 and 21) both sit on the head
cell `(3,3)`. Two growth events are queued (`k = 2`), but `grow` tests only
event presence, so the chain of length 2 grows to length 3 — not the
`2 + k = 4` required by the claim's "chain length grows by k". -/
theorem multi_food_hits_append_only_one :
    (eaterSys ⟨0, Direction.Up, [0, 1], [1], [20, 21],
        [(0, ⟨3, 3⟩), (1, ⟨3, 2⟩), (20, ⟨3, 3⟩), (21, ⟨3, 3⟩)], some ⟨3, 1⟩⟩).2 = 2 ∧
    (World.segments ⟨0, Direction.Up, [0, 1], [1], [20, 21],
        [(0, ⟨3, 3⟩), (1, ⟨3, 2⟩), (20, ⟨3, 3⟩), (21, ⟨3, 3⟩)], some ⟨3, 1⟩⟩).length = 2 ∧
    (growSys (decide (0 < (eaterSys ⟨0, Direction.Up, [0, 1], [1], [20, 21],
          [(0, ⟨3, 3⟩), (1, ⟨3, 2⟩), (20, ⟨3, 3⟩), (21, ⟨3, 3⟩)], some ⟨3, 1⟩⟩).2)) 30
        (eaterSys ⟨0, Direction.Up, [0, 1], [1], [20, 21],
          [(0, ⟨3, 3⟩), (1, ⟨3, 2⟩), (20, ⟨3, 3⟩), (21, ⟨3, 3⟩)],
          some ⟨3, 1⟩⟩).1).segments.length = 3 := by
  decide

/-- C8 amended: if `k ≥ 1` food positions equal the head position in one
pass, all `k` food items are removed and `k` growth events are queued, but
applying the events appends exactly ONE segment (`grow` checks only whether
any event exists), so the chain length grows by 1 whenever `k ≥ 1`; if
`k = 0`, no segment is added. -/
theorem food_hits_queue_events_grow_one (w : World) (g : Nat) (hp tp : Pos)
    (hhp : lookup w.positions w.headEntity = some hp) (hlt : w.lastTail = some tp) :
    (eaterSys w).2 = (w.food.filter (fun f => lookup w.positions f == some hp)).length ∧
    (eaterSys w).1.food = w.food.filter (fun f => !(lookup w.positions f == some hp)) ∧
    (0 < (eaterSys w).2 →
      (growSys (decide (0 < (eaterSys w).2)) g (eaterSys w).1).segments.length =
        w.segments.length + 1) ∧
    ((eaterSys w).2 = 0 →
      (growSys (decide (0 < (eaterSys w).2)) g (eaterSys w).1).segments = w.segments) := by
  have hrun : eaterSys w = ({ w with
      food := w.food.filter (fun f => !(lookup w.positions f == some hp))
      positions := w.positions.filter
        (fun q => decide (q.1 ∉ w.food.filter (fun f => lookup w.positions f == some hp))) },
    (w.food.filter (fun f => lookup w.positions f == some hp)).length) := by
    simp only [eaterSys, hhp]
  refine ⟨by rw [hrun], by rw [hrun], ?_, ?_⟩
  · intro hk
    rw [decide_eq_true hk]
    have hlt1 : (eaterSys w).1.lastTail = some tp := by rw [eaterSys_lastTail, hlt]
    simp [growSys, hlt1, eaterSys_segments]
  · intro hk
    rw [hk]
    rw [show (decide (0 < 0)) = false from rfl]
    rw [show ∀ x : World, growSys false g x = x from fun x => rfl]
    exact eaterSys_segments w

/-- C8 amended witness: the two-food world again — `k = 2` events are
queued, and the chain grows by exactly one. -/
theorem food_hits_queue_events_grow_one_witness :
    (eaterSys ⟨0, Direction.Up, [0, 1], [1], [20, 21],
        [(0, ⟨3, 3⟩), (1, ⟨3, 2⟩), (20, ⟨3, 3⟩), (21, ⟨3, 3⟩)], some ⟨3, 1⟩⟩).2
      = ((World.food ⟨0, Direction.Up, [0, 1], [1], [20, 21],
          [(0, ⟨3, 3⟩), (1, ⟨3, 2⟩), (20, ⟨3, 3⟩), (21, ⟨3, 3⟩)], some ⟨3, 1⟩⟩).filter
          (fun f => lookup (World.positions ⟨0, Direction.Up, [0, 1], [1], [20, 21],
            [(0, ⟨3, 3⟩), (1, ⟨3, 2⟩), (20, ⟨3, 3⟩), (21, ⟨3, 3⟩)], some ⟨3, 1⟩⟩) f
              == some ⟨3, 3⟩)).length ∧
    (growSys (decide (0 < (eaterSys ⟨0, Direction.Up, [0, 1], [1], [20, 21],
          [(0, ⟨3, 3⟩), (1, ⟨3, 2⟩), (20, ⟨3, 3⟩), (21, ⟨3, 3⟩)], some ⟨3, 1⟩⟩).2)) 31
        (eaterSys ⟨0, Direction.Up, [0, 1], [1], [20, 21],
          [(0, ⟨3, 3⟩), (1, ⟨3, 2⟩), (20, ⟨3, 3⟩), (21, ⟨3, 3⟩)],
          some ⟨3, 1⟩⟩).1).segments.length
      = (World.segments ⟨0, Direction.Up, [0, 1], [1], [20, 21],
          [(0, ⟨3, 3⟩), (1, ⟨3, 2⟩), (20, ⟨3, 3⟩), (21, ⟨3, 3⟩)],
          some ⟨3, 1⟩⟩).length + 1 :=
  ⟨(food_hits_queue_events_grow_one
      ⟨0, Direction.Up, [0, 1], [1], [20, 21],
        [(0, ⟨3, 3⟩), (1, ⟨3, 2⟩), (20, ⟨3, 3⟩), (21, ⟨3, 3⟩)], some ⟨3, 1⟩⟩
      31 ⟨3, 3⟩ ⟨3, 1⟩ (by decide) (by decide)).1,
    (food_hits_queue_events_grow_one
      ⟨0, Direction.Up, [0, 1], [1], [20, 21],
        [(0, ⟨3, 3⟩), (1, ⟨3, 2⟩), (20, ⟨3, 3⟩), (21, ⟨3, 3⟩)], some ⟨3, 1⟩⟩
      31 ⟨3, 3⟩ ⟨3, 1⟩ (by decide) (by decide)).2.2.1 (by decide)⟩

end Slither
